import Mathlib

/-!
Verification of the guble per-subscriber message-delivery core (Route,
Overflow Queue, Filter Matcher) and the Service lifecycle stop logic.

The Route, queue and filter implementations are not present under src/
(only their tests are), so they are modelled from the spec, with routable
behaviour pinned by the tests in src/server/router/route_test.go where the
spec leaves a choice. Service.Stop is embedded from src/server/service.go.

Conventions of the embedding:
- Go `error` results become `Option RouteErr` (`none` = nil = success).
- The output channel is its buffered contents (a list) plus a closed flag;
  a consumer read takes the head; a closed, drained channel is end-of-stream.
- The background pump task becomes explicit step functions (`pumpStep`,
  `pumpTimeout`); real time is abstracted into the event "the delivery
  timeout expired while the head of the queue waited on a full channel".
- Durations are natural numbers of abstract time units.
-/

/-- Message as produced by publishers (protocol.Message): identifier, topic
path, payload, and the optional publisher-set filter mapping. -/
structure Msg where
  id : Nat
  path : String
  body : String
  filter : List (String × String)
deriving DecidableEq

/-- Lookup of a key in an association list (the mapping type used for
subscription parameters, message filters and the Go error map). -/
def lookupParam : List (String × String) → String → Option String
  | [], _ => none
  | (k, v) :: rest, key => if k = key then some v else lookupParam rest key

/-- Modelled from the spec: the Filter Matcher (section 4.1), whose code is
not under src/. A message filter matches the route's subscription parameters
iff every key of the filter is present in the parameters with an equal
value; the empty filter matches everything. -/
def messageFilterMatch (params filt : List (String × String)) : Bool :=
  filt.all fun kv => lookupParam params kv.1 == some kv.2

/-- Possible non-nil results of Route operations. -/
inductive RouteErr where
  | invalidRoute
  | channelFull
  | queueFull
deriving DecidableEq

/-- Modelled from the spec: the Overflow Queue (section 4.5), whose code is
not under src/. A FIFO with a remembered capacity policy. -/
structure MsgQueue where
  capacity : Int
  messages : List Msg
deriving DecidableEq

/-- Modelled from the spec: queue constructor (newQueue in the tests). -/
def newQueue (cap : Int) : MsgQueue :=
  { capacity := cap, messages := [] }

/-- Modelled from the spec: O(1) append at the back. -/
def MsgQueue.push (q : MsgQueue) (m : Msg) : MsgQueue :=
  { q with messages := q.messages ++ [m] }

/-- Modelled from the spec: remove-from-front; removing from an empty queue
is a no-op (returns nothing, does not error). -/
def MsgQueue.remove (q : MsgQueue) : MsgQueue :=
  match q.messages with
  | [] => q
  | _ :: rest => { q with messages := rest }

/-- Modelled from the spec: current length of the queue. -/
def MsgQueue.size (q : MsgQueue) : Nat :=
  q.messages.length

/-- Route construction configuration (section 6): path, subscription
parameters, channel capacity, queue capacity policy (0 = none, N > 0 =
bounded, -1 = unbounded), optional delivery timeout (0 = disabled). -/
structure RouteConfig where
  path : String
  params : List (String × String)
  channelSize : Nat
  queueSize : Int
  timeout : Nat
deriving DecidableEq

/-- Modelled from the spec: the Route state (section 3). `channel` is the
buffered contents of the bounded output channel, `channelClosed` its closed
flag, `consuming` whether the pump task is running, `invalid` the terminal
flag. -/
structure Route where
  path : String
  params : List (String × String)
  channelSize : Nat
  queueSize : Int
  timeout : Nat
  channel : List Msg
  channelClosed : Bool
  queue : MsgQueue
  consuming : Bool
  invalid : Bool
deriving DecidableEq

/-- Modelled from the spec: NewRoute builds a fresh Route from its
configuration, with an empty channel and queue and cleared flags. -/
def newRoute (c : RouteConfig) : Route :=
  { path := c.path
    params := c.params
    channelSize := c.channelSize
    queueSize := c.queueSize
    timeout := c.timeout
    channel := []
    channelClosed := false
    queue := newQueue c.queueSize
    consuming := false
    invalid := false }

/-- Modelled from the spec: invalidate (section 4.4) sets the terminal flag,
closes the output channel (already-buffered messages stay drainable) and
stops the pump. -/
def invalidate (r : Route) : Route :=
  { r with invalid := true, channelClosed := true, consuming := false }

/-- Modelled from the spec: the Deliver protocol (section 4.2), whose code
is not under src/. Fail fast when invalid; silently drop a non-matching
message; otherwise probe the output channel without blocking; on a full
channel either invalidate (queue disabled), invalidate with a saturation
error (bounded queue full), or append to the overflow queue and ensure the
pump is consuming. -/
def deliver (r : Route) (m : Msg) : Route × Option RouteErr :=
  if r.invalid then
    (r, some .invalidRoute)
  else if !(messageFilterMatch r.params m.filter) then
    (r, none)
  else if r.channel.length < r.channelSize then
    ({ r with channel := r.channel ++ [m] }, none)
  else if r.queueSize = 0 then
    (invalidate r, some .channelFull)
  else if 0 < r.queueSize ∧ r.queueSize ≤ (r.queue.size : Int) then
    (invalidate r, some .queueFull)
  else
    ({ r with queue := r.queue.push m, consuming := true }, none)

/-- Modelled from the spec and the tests: Close (section 4.4) reports
ErrInvalidRoute when already invalid, otherwise invalidates. The return
value of the first call is pinned by TestRoute_CloseTwice
(src/server/router/route_test.go lines 140-144), which asserts
ErrInvalidRoute for the first call as well as the second. -/
def close (r : Route) : Route × Option RouteErr :=
  if r.invalid then
    (r, some .invalidRoute)
  else
    (invalidate r, some .invalidRoute)

/-- Modelled from the spec: one step of the pump task (section 4.3). While
consuming, move the head of the overflow queue onto the output channel when
there is room; exit (consuming := false) when the queue is drained; stay
blocked on a full channel. -/
def pumpStep (r : Route) : Route :=
  if r.consuming then
    match r.queue.messages with
    | [] => { r with consuming := false }
    | m :: _ =>
      if r.channel.length < r.channelSize then
        { r with channel := r.channel ++ [m], queue := r.queue.remove }
      else
        r
  else
    r

/-- Modelled from the spec: the delivery-timeout transition of the pump
(section 4.3). When the pump is consuming, a timeout is configured, the
channel is full and a queued message is waiting, the elapse of the timeout
invalidates the route and the pump exits. -/
def pumpTimeout (r : Route) : Route :=
  if r.consuming ∧ r.timeout ≠ 0 ∧ r.channelSize ≤ r.channel.length ∧ r.queue.size ≠ 0 then
    invalidate r
  else
    r

/-- Events a Route can undergo after construction: a Deliver call, a pump
step, the elapse of the delivery timeout, or an external Close. -/
inductive Ev where
  | deliverEv (m : Msg)
  | pumpEv
  | pumpTimeoutEv
  | closeEv
deriving DecidableEq

/-- State reached by one event. -/
def applyEv (r : Route) : Ev → Route
  | .deliverEv m => (deliver r m).1
  | .pumpEv => pumpStep r
  | .pumpTimeoutEv => pumpTimeout r
  | .closeEv => (close r).1

/-- State reached by a sequence of events. -/
def run (r : Route) (evs : List Ev) : Route :=
  evs.foldl applyEv r

/-- Successive Deliver calls for a list of messages, collecting each call's
result in order. -/
def deliverList (r : Route) : List Msg → Route × List (Option RouteErr)
  | [] => (r, [])
  | m :: ms =>
    let first := deliver r m
    let rest := deliverList first.1 ms
    (rest.1, first.2 :: rest.2)

/-- Subscription parameters used by testRoute in route_test.go. -/
def testParams : List (String × String) :=
  [("application_id", "appID"), ("user_id", "userID")]

/-- Configuration built by testRoute: channel size 10, queue disabled,
no timeout. -/
def testCfg : RouteConfig :=
  { path := "/dummy", params := testParams, channelSize := 10, queueSize := 0, timeout := 0 }

/-- The dummy message of route_test.go; its filter is empty. -/
def dummyMsg : Msg :=
  { id := 1, path := "/dummy", body := "dummy body", filter := [] }

/-!
Service.Stop (src/server/service.go, lines 101-147). A registered module
either implements Stopable or not; a Stopable module's Stop call is
abstracted by how long it takes and whether it returns an error. The
goroutine-plus-select of the code becomes: the select takes the module's own
outcome when the module finishes within the grace period, and the timeout
branch otherwise (a finish exactly at the deadline is a race in Go; the
model lets the module's outcome win). `errors` is the Go map keyed by
module name, modelled as an association list with assignment replacing an
existing key.
-/

/-- Abstraction of one Stopable module: its name (reflect.TypeOf), how many
time units its Stop() takes, and the error Stop() returns (none = nil). -/
structure ModuleSpec where
  name : String
  duration : Nat
  result : Option String
deriving DecidableEq

/-- A registered module: `some` when it implements Stopable (with its stop
behaviour), `none` when it does not. -/
def RegisteredModule : Type :=
  Option ModuleSpec

/-- Go map assignment `errs[key] = v`: replace the binding when the key is
present, append it otherwise. -/
def mapSet : List (String × String) → String → String → List (String × String)
  | [], key, v => [(key, v)]
  | (k, w) :: rest, key, v =>
    if k = key then (k, v) :: rest else (k, w) :: mapSet rest key v

/-- Outcome of stopping one module inside Service.Stop's loop: its name, the
time the select began and ended, and the error recorded for it (none when
the module stopped cleanly). -/
structure StopEntry where
  name : String
  start : Nat
  finish : Nat
  recorded : Option String
deriving DecidableEq

/-- One iteration of Service.Stop's loop (service.go lines 119-142): launch
the module's Stop in its own task at time `t` and select on its error, its
completion, or the grace-period timeout. -/
def stopOne (grace t : Nat) (m : ModuleSpec) : StopEntry :=
  if m.duration ≤ grace then
    { name := m.name, start := t, finish := t + m.duration, recorded := m.result }
  else
    { name := m.name, start := t, finish := t + grace
      recorded := some "did not stop after timeout" }

/-- The loop of Service.Stop over an ordered list of Stopable modules: each
module is awaited to its outcome (success, error or timeout) before the
next one begins. -/
def stopLoop (grace : Nat) : Nat → List ModuleSpec → List StopEntry
  | _, [] => []
  | t, m :: rest =>
    let e := stopOne grace t m
    e :: stopLoop grace e.finish rest

/-- Recording one loop iteration's outcome in the `errors` map: a clean
stop records nothing, an error or timeout is stored under the module's
name. -/
def recordErr (errs : List (String × String)) (e : StopEntry) : List (String × String) :=
  match e.recorded with
  | none => errs
  | some s => mapSet errs e.name s

/-- The `errors` map accumulated by Service.Stop's loop. -/
def stopErrors (entries : List StopEntry) : List (String × String) :=
  entries.foldl recordErr []

/-- Embedded from Service.Stop (service.go lines 101-147): collect the
Stopable modules in registration order, stop them in reverse order
(stopOrder = len-1 down to 0), and return the aggregate error (none when the
error map stayed empty) together with the per-module trace. -/
def serviceStop (stopGracePeriod : Nat) (modules : List RegisteredModule) :
    Option (List (String × String)) × List StopEntry :=
  let stopables := modules.filterMap id
  let entries := stopLoop stopGracePeriod 0 stopables.reverse
  let errs := stopErrors entries
  (if errs.isEmpty then none else some errs, entries)

/-- Configuration of TestRouteDeliver_QueueSize: the test route with a
bounded overflow queue of 5. -/
def cfgQueue5 : RouteConfig :=
  { testCfg with queueSize := 5 }

/-- Configuration of TestRouteDeliver_WithTimeout: the test route with an
unbounded overflow queue and a 10-unit delivery timeout. -/
def cfgTimeout : RouteConfig :=
  { testCfg with queueSize := -1, timeout := 10 }

/-- Invariant tying the terminal flag to the closed channel and the stopped
pump: an invalid Route has its output channel closed and is not consuming. -/
def RouteInv (r : Route) : Prop :=
  r.invalid = true → r.channelClosed = true ∧ r.consuming = false

/-! Theorems. -/

/-- C7: removing the front element from an overflow queue of size 0 is a
no-op: it leaves the queue unchanged (returning nothing, erroring nowhere)
and the size stays 0. -/
theorem queue_removeEmpty_noop (q : MsgQueue) (h : q.size = 0) :
    q.remove = q ∧ q.remove.size = 0 := by
  obtain ⟨cap, msgs⟩ := q
  simp only [MsgQueue.size] at h
  have hnil : msgs = [] := List.length_eq_zero.mp h
  subst hnil
  exact ⟨rfl, rfl⟩

/-- Witness for C7 at the queue of TestQueue_ShiftEmpty: newQueue 5. -/
theorem queue_removeEmpty_noop_witness :
    (newQueue 5).size = 0 ∧
    ((newQueue 5).remove = newQueue 5 ∧ (newQueue 5).remove.size = 0) :=
  ⟨rfl, queue_removeEmpty_noop (newQueue 5) rfl⟩

/-- C2 counterexample: on a fresh (not yet invalid) Route, the first Close
already returns ErrInvalidRoute rather than success, as TestRoute_CloseTwice
asserts; the claim's "returns success (nil error)" is false. -/
theorem close_fresh_cex :
    (newRoute testCfg).invalid = false ∧
    (close (newRoute testCfg)).2 = some RouteErr.invalidRoute := by
  exact ⟨rfl, rfl⟩

/-- C2 (amended): Close on a fresh Route performs invalidation but returns
ErrInvalidRoute; a second Close, the Route now invalid, returns
ErrInvalidRoute again with no further state change. -/
theorem close_twice (r : Route) (h : r.invalid = false) :
    (close r).1 = invalidate r ∧
    (close r).2 = some RouteErr.invalidRoute ∧
    (close r).1.invalid = true ∧
    close (close r).1 = ((close r).1, some RouteErr.invalidRoute) := by
  simp [close, h, invalidate]

/-- Witness for C2 at the fresh route of testRoute. -/
theorem close_twice_witness :
    (newRoute testCfg).invalid = false ∧
    ((close (newRoute testCfg)).1 = invalidate (newRoute testCfg) ∧
     (close (newRoute testCfg)).2 = some RouteErr.invalidRoute ∧
     (close (newRoute testCfg)).1.invalid = true ∧
     close (close (newRoute testCfg)).1
       = ((close (newRoute testCfg)).1, some RouteErr.invalidRoute)) :=
  ⟨rfl, close_twice (newRoute testCfg) rfl⟩

/-- C3: the empty filter matches every route; a message matches iff every
key of its filter appears in the subscription parameters with an equal
value; an extra filter key unknown to the parameters forces a non-match;
and a non-matching Deliver on a valid route returns success with no state
change at all. -/
theorem filter_match_spec (params filt : List (String × String)) (r : Route) (m : Msg) :
    (filt = [] → messageFilterMatch params filt = true) ∧
    (messageFilterMatch params filt = true ↔
      ∀ kv ∈ filt, lookupParam params kv.1 = some kv.2) ∧
    (∀ kv ∈ filt, lookupParam params kv.1 = none →
      messageFilterMatch params filt = false) ∧
    (r.invalid = false → messageFilterMatch r.params m.filter = false →
      deliver r m = (r, none)) := by
  have hiff : messageFilterMatch params filt = true ↔
      ∀ kv ∈ filt, lookupParam params kv.1 = some kv.2 := by
    simp [messageFilterMatch, List.all_eq_true, beq_iff_eq]
  refine ⟨?_, hiff, ?_, ?_⟩
  · intro h
    subst h
    rfl
  · intro kv hkv hnone
    cases hmf : messageFilterMatch params filt with
    | false => rfl
    | true =>
      have := (hiff.mp hmf) kv hkv
      rw [hnone] at this
      exact absurd this (by simp)
  · intro hi hnm
    simp [deliver, hi, hnm]

/-- Deliver preserves the invalidation invariant. -/
theorem routeInv_deliver (r : Route) (m : Msg) (h : RouteInv r) :
    RouteInv (deliver r m).1 := by
  unfold RouteInv deliver at *
  split_ifs with h1 h2 h3 h4 h5 <;> simp_all [invalidate]

/-- Close preserves the invalidation invariant. -/
theorem routeInv_close (r : Route) (h : RouteInv r) :
    RouteInv (close r).1 := by
  unfold RouteInv close at *
  split_ifs with h1 <;> simp_all [invalidate]

/-- A pump step preserves the invalidation invariant. -/
theorem routeInv_pumpStep (r : Route) (h : RouteInv r) :
    RouteInv (pumpStep r) := by
  intro hi
  unfold pumpStep at hi ⊢
  by_cases h1 : r.consuming = true
  · simp only [h1, if_true] at hi ⊢
    cases hq : r.queue.messages with
    | nil =>
      simp only [hq] at hi ⊢
      exact ⟨(h hi).1, trivial⟩
    | cons a tail =>
      simp only [hq] at hi ⊢
      by_cases h2 : r.channel.length < r.channelSize
      · simp only [h2, if_true] at hi ⊢
        exact absurd (h hi).2 (by simp [h1])
      · simp only [h2, if_false] at hi ⊢
        exact h hi
  · simp only [h1, if_false] at hi ⊢
    exact h hi

/-- The timeout transition preserves the invalidation invariant. -/
theorem routeInv_pumpTimeout (r : Route) (h : RouteInv r) :
    RouteInv (pumpTimeout r) := by
  unfold RouteInv pumpTimeout at *
  split_ifs with h1 <;> simp_all [invalidate]

/-- Every event preserves the invalidation invariant. -/
theorem routeInv_applyEv (r : Route) (e : Ev) (h : RouteInv r) :
    RouteInv (applyEv r e) := by
  cases e with
  | deliverEv m => exact routeInv_deliver r m h
  | pumpEv => exact routeInv_pumpStep r h
  | pumpTimeoutEv => exact routeInv_pumpTimeout r h
  | closeEv => exact routeInv_close r h

/-- The invalidation invariant holds in every state reachable from a fresh
Route. -/
theorem routeInv_run (cfg : RouteConfig) (evs : List Ev) :
    RouteInv (run (newRoute cfg) evs) := by
  suffices hstep : ∀ (l : List Ev) (r : Route), RouteInv r → RouteInv (run r l) by
    refine hstep evs (newRoute cfg) ?_
    intro hbad
    simp [newRoute] at hbad
  intro l
  induction l with
  | nil => intro r h; exact h
  | cons e rest ih =>
    intro r h
    exact ih (applyEv r e) (routeInv_applyEv r e h)

/-- An invalid Route with a stopped pump is a fixed point of every event. -/
theorem applyEv_invalid_fix (r : Route) (e : Ev)
    (hinv : r.invalid = true) (hcon : r.consuming = false) :
    applyEv r e = r := by
  cases e with
  | deliverEv m => simp [applyEv, deliver, hinv]
  | pumpEv => simp [applyEv, pumpStep, hcon]
  | pumpTimeoutEv => simp [applyEv, pumpTimeout, hcon]
  | closeEv => simp [applyEv, close, hinv]

/-- C1: in every reachable Route state that is invalid, each Deliver call
returns ErrInvalidRoute and changes nothing, the output channel is closed
(so its buffered messages, once drained, are followed by end-of-stream),
and no event whatsoever changes the state again — in particular nothing is
ever added to the output stream. -/
theorem route_invalid_terminal (cfg : RouteConfig) (evs : List Ev)
    (hinv : (run (newRoute cfg) evs).invalid = true) :
    (∀ m, deliver (run (newRoute cfg) evs) m
        = (run (newRoute cfg) evs, some RouteErr.invalidRoute)) ∧
    (run (newRoute cfg) evs).channelClosed = true ∧
    (∀ e, applyEv (run (newRoute cfg) evs) e = run (newRoute cfg) evs) := by
  obtain ⟨hclosed, hcon⟩ := routeInv_run cfg evs hinv
  refine ⟨?_, hclosed, ?_⟩
  · intro m
    simp [deliver, hinv]
  · intro e
    exact applyEv_invalid_fix _ e hinv hcon

/-- Witness for C1: the route of testRoute after one Close. -/
theorem route_invalid_terminal_witness :
    (run (newRoute testCfg) [Ev.closeEv]).invalid = true ∧
    ((∀ m, deliver (run (newRoute testCfg) [Ev.closeEv]) m
        = (run (newRoute testCfg) [Ev.closeEv], some RouteErr.invalidRoute)) ∧
     (run (newRoute testCfg) [Ev.closeEv]).channelClosed = true ∧
     (∀ e, applyEv (run (newRoute testCfg) [Ev.closeEv]) e
        = run (newRoute testCfg) [Ev.closeEv])) :=
  ⟨rfl, route_invalid_terminal testCfg [Ev.closeEv] rfl⟩

/-- C8: Deliver is a total function of the pre-state that never waits on
the consumer: it never removes anything from the output channel or the
overflow queue, the only channel effect is an append, taken exactly when
the channel has room (a non-blocking probe), and the only queue effect is
an immediate append. -/
theorem deliver_nonBlocking (r : Route) (m : Msg) :
    ((deliver r m).1.channel = r.channel ∨
      (r.channel.length < r.channelSize ∧
        (deliver r m).1.channel = r.channel ++ [m])) ∧
    ((deliver r m).1.queue.messages = r.queue.messages ∨
      (deliver r m).1.queue.messages = r.queue.messages ++ [m]) := by
  unfold deliver
  split_ifs with h1 h2 h3 h4 h5 <;>
    simp_all [invalidate, MsgQueue.push]

/-- Filling lemma: delivering a list of matching messages into a valid
route whose channel has room for all of them appends them to the channel in
order, every call returning success, and touches nothing else. -/
theorem deliverList_fill (ms : List Msg) : ∀ (r : Route),
    r.invalid = false →
    (∀ x ∈ ms, messageFilterMatch r.params x.filter = true) →
    r.channel.length + ms.length ≤ r.channelSize →
    deliverList r ms
      = ({ r with channel := r.channel ++ ms }, List.replicate ms.length none) := by
  induction ms with
  | nil =>
    intro r _ _ _
    simp [deliverList]
  | cons m rest ih =>
    intro r h1 h2 h3
    have hm : messageFilterMatch r.params m.filter = true := h2 m (by simp)
    have hlt : r.channel.length < r.channelSize := by
      simp only [List.length_cons] at h3
      omega
    have hd : deliver r m = ({ r with channel := r.channel ++ [m] }, none) := by
      simp [deliver, h1, hm, hlt]
    have hrest := ih { r with channel := r.channel ++ [m] }
      (by simp [h1]) (by intro x hx; exact h2 x (by simp [hx]))
      (by simp only [List.length_append, List.length_cons,
            List.length_nil] at h3 ⊢; omega)
    simp only [deliverList, hd, hrest]
    simp [List.append_assoc, List.replicate_succ]

/-- C4: on a Route whose overflow queue is disabled (queueCapacity 0), the
first channelCapacity deliveries of matching messages all succeed and buffer
the messages in order; the next matching delivery, finding the channel
full, invalidates the route; every buffered message is still in the channel
(readable before the now-closed stream ends) and the queue is empty. -/
theorem route_queueDisabled_overflow (cfg : RouteConfig) (ms : List Msg) (m : Msg)
    (hq : cfg.queueSize = 0)
    (hlen : ms.length = cfg.channelSize)
    (hms : ∀ x ∈ ms, messageFilterMatch cfg.params x.filter = true)
    (hm : messageFilterMatch cfg.params m.filter = true) :
    (deliverList (newRoute cfg) ms).2 = List.replicate cfg.channelSize none ∧
    (deliverList (newRoute cfg) ms).1.channel = ms ∧
    (deliverList (newRoute cfg) ms).1.invalid = false ∧
    (deliver (deliverList (newRoute cfg) ms).1 m).1.invalid = true ∧
    (deliver (deliverList (newRoute cfg) ms).1 m).1.channelClosed = true ∧
    (deliver (deliverList (newRoute cfg) ms).1 m).1.channel = ms ∧
    (deliver (deliverList (newRoute cfg) ms).1 m).1.queue.size = 0 := by
  have hfill := deliverList_fill ms (newRoute cfg) rfl
    (by simpa [newRoute] using hms)
    (by simp [newRoute, hlen])
  simp only [newRoute, newQueue, List.nil_append, hq] at hfill
  refine ⟨?_, ?_, ?_, ?_, ?_, ?_, ?_⟩ <;>
    simp [newRoute, newQueue, hfill, deliver, invalidate, hq, hm, hlen,
      MsgQueue.size]

/-- Witness for C4 at the configuration of TestRouteDeliver_sendDirect:
channel capacity 10, queue disabled, ten dummy messages then one more. -/
theorem route_queueDisabled_overflow_witness :
    (testCfg.queueSize = 0 ∧
     (List.replicate 10 dummyMsg).length = testCfg.channelSize ∧
     (∀ x ∈ List.replicate 10 dummyMsg,
        messageFilterMatch testCfg.params x.filter = true) ∧
     messageFilterMatch testCfg.params dummyMsg.filter = true) ∧
    ((deliverList (newRoute testCfg) (List.replicate 10 dummyMsg)).2
        = List.replicate testCfg.channelSize none ∧
     (deliverList (newRoute testCfg) (List.replicate 10 dummyMsg)).1.channel
        = List.replicate 10 dummyMsg ∧
     (deliverList (newRoute testCfg) (List.replicate 10 dummyMsg)).1.invalid = false ∧
     (deliver (deliverList (newRoute testCfg) (List.replicate 10 dummyMsg)).1
        dummyMsg).1.invalid = true ∧
     (deliver (deliverList (newRoute testCfg) (List.replicate 10 dummyMsg)).1
        dummyMsg).1.channelClosed = true ∧
     (deliver (deliverList (newRoute testCfg) (List.replicate 10 dummyMsg)).1
        dummyMsg).1.channel = List.replicate 10 dummyMsg ∧
     (deliver (deliverList (newRoute testCfg) (List.replicate 10 dummyMsg)).1
        dummyMsg).1.queue.size = 0) :=
  ⟨⟨rfl, rfl, by decide, rfl⟩,
    route_queueDisabled_overflow testCfg (List.replicate 10 dummyMsg) dummyMsg
      rfl rfl (by decide) rfl⟩

/-- C5: on the test route with channel capacity 10 and queue capacity 5 and
nobody reading, 15 successive deliveries all succeed (10 buffered in the
channel, 5 queued); the 16th returns the queue-saturation error, the route
becomes invalid and the pump is no longer consuming. -/
theorem route_queueSize_saturation :
    (deliverList (newRoute cfgQueue5) (List.replicate 15 dummyMsg)).2
      = List.replicate 15 none ∧
    (deliverList (newRoute cfgQueue5) (List.replicate 15 dummyMsg)).1.channel.length = 10 ∧
    (deliverList (newRoute cfgQueue5) (List.replicate 15 dummyMsg)).1.queue.size = 5 ∧
    (deliverList (newRoute cfgQueue5) (List.replicate 15 dummyMsg)).1.invalid = false ∧
    (deliver (deliverList (newRoute cfgQueue5) (List.replicate 15 dummyMsg)).1
      dummyMsg).2 = some RouteErr.queueFull ∧
    (deliver (deliverList (newRoute cfgQueue5) (List.replicate 15 dummyMsg)).1
      dummyMsg).1.invalid = true ∧
    (deliver (deliverList (newRoute cfgQueue5) (List.replicate 15 dummyMsg)).1
      dummyMsg).1.consuming = false := by
  decide

/-- C6: on the test route with an unbounded queue (capacity -1) and delivery
timeout 10, the ten deliveries filling the channel succeed, one more
delivery still succeeds by going to the overflow queue (the pump now
consuming); when the timeout elapses with no consumer reading, the route
becomes invalid, the pump exits and a subsequent delivery returns
ErrInvalidRoute. -/
theorem route_timeout_invalidation :
    (deliverList (newRoute cfgTimeout) (List.replicate 10 dummyMsg)).2
      = List.replicate 10 none ∧
    (deliverList (newRoute cfgTimeout) (List.replicate 10 dummyMsg)).1.channel.length = 10 ∧
    (deliver (deliverList (newRoute cfgTimeout) (List.replicate 10 dummyMsg)).1
      dummyMsg).2 = none ∧
    (deliver (deliverList (newRoute cfgTimeout) (List.replicate 10 dummyMsg)).1
      dummyMsg).1.queue.size = 1 ∧
    (deliver (deliverList (newRoute cfgTimeout) (List.replicate 10 dummyMsg)).1
      dummyMsg).1.consuming = true ∧
    (deliver (deliverList (newRoute cfgTimeout) (List.replicate 10 dummyMsg)).1
      dummyMsg).1.invalid = false ∧
    (pumpTimeout (deliver (deliverList (newRoute cfgTimeout)
      (List.replicate 10 dummyMsg)).1 dummyMsg).1).invalid = true ∧
    (pumpTimeout (deliver (deliverList (newRoute cfgTimeout)
      (List.replicate 10 dummyMsg)).1 dummyMsg).1).consuming = false ∧
    (pumpTimeout (deliver (deliverList (newRoute cfgTimeout)
      (List.replicate 10 dummyMsg)).1 dummyMsg).1).channelClosed = true ∧
    (deliver (pumpTimeout (deliver (deliverList (newRoute cfgTimeout)
      (List.replicate 10 dummyMsg)).1 dummyMsg).1) dummyMsg).2
      = some RouteErr.invalidRoute := by
  decide

/-- Go map assignment never empties the map. -/
theorem mapSet_ne_nil (errs : List (String × String)) (key v : String) :
    mapSet errs key v ≠ [] := by
  cases errs with
  | nil => simp [mapSet]
  | cons p rest =>
    obtain ⟨k, w⟩ := p
    simp only [mapSet]
    split_ifs <;> simp

/-- After an assignment the assigned key holds the assigned value. -/
theorem lookupParam_mapSet_self (errs : List (String × String)) (key v : String) :
    lookupParam (mapSet errs key v) key = some v := by
  induction errs with
  | nil => simp [mapSet, lookupParam]
  | cons p rest ih =>
    obtain ⟨k, w⟩ := p
    by_cases hk : k = key
    · subst hk
      simp [mapSet, lookupParam]
    · simp [mapSet, lookupParam, hk, ih]

/-- An assignment keeps every key that was already present. -/
theorem lookupParam_mapSet_isSome (errs : List (String × String)) (key v k : String)
    (h : (lookupParam errs k).isSome = true) :
    (lookupParam (mapSet errs key v) k).isSome = true := by
  induction errs with
  | nil => simp [lookupParam] at h
  | cons p rest ih =>
    obtain ⟨k1, w⟩ := p
    by_cases h1 : k1 = key
    · subst h1
      by_cases h2 : k1 = k
      · subst h2
        simp [mapSet, lookupParam]
      · simp only [mapSet, if_pos rfl, lookupParam, if_neg h2] at h ⊢
        exact h
    · by_cases h2 : k1 = k
      · subst h2
        simp [mapSet, h1, lookupParam]
      · simp only [mapSet, if_neg h1, lookupParam, if_neg h2] at h ⊢
        exact ih h

/-- Accumulating further entries keeps every key already in the map. -/
theorem recordErr_foldl_keep (entries : List StopEntry) :
    ∀ (acc : List (String × String)) (k : String),
      (lookupParam acc k).isSome = true →
      (lookupParam (entries.foldl recordErr acc) k).isSome = true := by
  induction entries with
  | nil =>
    intro acc k h
    simpa using h
  | cons e rest ih =>
    intro acc k h
    simp only [List.foldl_cons]
    apply ih
    cases hr : e.recorded with
    | none => simpa [recordErr, hr] using h
    | some s =>
      simp only [recordErr, hr]
      exact lookupParam_mapSet_isSome acc e.name s k h

/-- Every entry with a recorded error ends up as a key of the error map. -/
theorem recordErr_foldl_reported (entries : List StopEntry) :
    ∀ (acc : List (String × String)) (e : StopEntry),
      e ∈ entries → e.recorded ≠ none →
      (lookupParam (entries.foldl recordErr acc) e.name).isSome = true := by
  induction entries with
  | nil =>
    intro acc e he
    simp at he
  | cons a rest ih =>
    intro acc e he hrec
    rcases List.mem_cons.mp he with rfl | hmem
    · simp only [List.foldl_cons]
      apply recordErr_foldl_keep
      cases hr : e.recorded with
      | none => exact absurd hr hrec
      | some s => simp [recordErr, hr, lookupParam_mapSet_self]
    · simp only [List.foldl_cons]
      exact ih _ e hmem hrec

/-- The error map is empty only when it started empty and nothing was ever
recorded. -/
theorem recordErr_foldl_nil (entries : List StopEntry) :
    ∀ (acc : List (String × String)),
      entries.foldl recordErr acc = [] →
      acc = [] ∧ ∀ e ∈ entries, e.recorded = none := by
  induction entries with
  | nil =>
    intro acc h
    exact ⟨h, by simp⟩
  | cons a rest ih =>
    intro acc h
    simp only [List.foldl_cons] at h
    obtain ⟨h1, h2⟩ := ih _ h
    cases hr : a.recorded with
    | none =>
      refine ⟨by simpa [recordErr, hr] using h1, ?_⟩
      intro e he
      rcases List.mem_cons.mp he with rfl | hm
      · exact hr
      · exact h2 e hm
    | some s =>
      exact absurd (by simpa [recordErr, hr] using h1) (mapSet_ne_nil acc a.name s)

/-- When nothing is recorded the error map is returned untouched. -/
theorem recordErr_foldl_none (entries : List StopEntry) :
    ∀ (acc : List (String × String)),
      (∀ e ∈ entries, e.recorded = none) →
      entries.foldl recordErr acc = acc := by
  induction entries with
  | nil =>
    intro acc _
    rfl
  | cons a rest ih =>
    intro acc h
    have hr : a.recorded = none := h a (by simp)
    simp only [List.foldl_cons, recordErr, hr]
    exact ih acc (fun e he => h e (by simp [he]))

/-- The error map of a run is empty exactly when every entry stopped
cleanly. -/
theorem stopErrors_nil_iff (entries : List StopEntry) :
    stopErrors entries = [] ↔ ∀ e ∈ entries, e.recorded = none := by
  constructor
  · intro h
    exact (recordErr_foldl_nil entries [] h).2
  · intro h
    exact recordErr_foldl_none entries [] h

/-- The select keeps the module's name whichever branch wins. -/
theorem stopOne_name (grace t : Nat) (m : ModuleSpec) :
    (stopOne grace t m).name = m.name := by
  unfold stopOne
  split_ifs <;> rfl

/-- The select starts when it is entered. -/
theorem stopOne_start (grace t : Nat) (m : ModuleSpec) :
    (stopOne grace t m).start = t := by
  unfold stopOne
  split_ifs <;> rfl

/-- The select resolves within the grace period. -/
theorem stopOne_finish_le (grace t : Nat) (m : ModuleSpec) :
    (stopOne grace t m).finish ≤ t + grace := by
  unfold stopOne
  split_ifs with h <;> dsimp only <;> omega

/-- Nothing is recorded for a module exactly when it stopped cleanly within
the grace period. -/
theorem stopOne_recorded_none_iff (grace t : Nat) (m : ModuleSpec) :
    (stopOne grace t m).recorded = none ↔
      (m.duration ≤ grace ∧ m.result = none) := by
  unfold stopOne
  split_ifs with h <;> simp [h]

/-- The loop stops exactly the modules it is given, in their order. -/
theorem stopLoop_name (grace : Nat) (ms : List ModuleSpec) : ∀ t,
    (stopLoop grace t ms).map StopEntry.name = ms.map ModuleSpec.name := by
  induction ms with
  | nil => intro t; rfl
  | cons m rest ih =>
    intro t
    simp [stopLoop, stopOne_name, ih]

/-- The first entry of the loop begins at the loop's start time. -/
theorem stopLoop_start (grace : Nat) (ms : List ModuleSpec) (t : Nat) :
    ∀ e ∈ (stopLoop grace t ms).head?, e.start = t := by
  cases ms with
  | nil => simp [stopLoop]
  | cons m rest => simp [stopLoop, stopOne_start]

/-- Consecutive loop entries abut: each module's select begins exactly when
the previous module's outcome (or timeout) arrived. -/
theorem stopLoop_chain (grace : Nat) (ms : List ModuleSpec) : ∀ t,
    List.Chain' (fun a b => b.start = a.finish) (stopLoop grace t ms) := by
  induction ms with
  | nil => intro t; simp [stopLoop]
  | cons m rest ih =>
    intro t
    simp only [stopLoop]
    rw [List.chain'_cons']
    exact ⟨fun b hb => stopLoop_start grace rest _ b hb, ih _⟩

/-- Each entry of the loop is bounded by its own grace period. -/
theorem stopLoop_bound (grace : Nat) (ms : List ModuleSpec) : ∀ t,
    ∀ e ∈ stopLoop grace t ms, e.finish ≤ e.start + grace := by
  induction ms with
  | nil =>
    intro t e he
    simp [stopLoop] at he
  | cons m rest ih =>
    intro t e he
    simp only [stopLoop, List.mem_cons] at he
    rcases he with rfl | hm
    · rw [stopOne_start]
      exact stopOne_finish_le grace t m
    · exact ih _ e hm

/-- All entries stop cleanly exactly when every module finishes in time
with a nil error. -/
theorem stopLoop_recorded_iff (grace : Nat) (ms : List ModuleSpec) : ∀ t,
    (∀ e ∈ stopLoop grace t ms, e.recorded = none) ↔
      (∀ m ∈ ms, m.duration ≤ grace ∧ m.result = none) := by
  induction ms with
  | nil => intro t; simp [stopLoop]
  | cons m rest ih =>
    intro t
    simp only [stopLoop, List.forall_mem_cons]
    rw [stopOne_recorded_none_iff, ih]

/-- C9 counterexample: with grace period 2 and two Stopable modules whose
Stop takes 5 units each, the loop of Service.Stop awaits the first module's
timeout before even starting the second, which therefore only finishes at
time 4: the stops are not executed concurrently across modules, since
concurrent execution would have every stop resolved within the grace
period of Stop's start. -/
theorem serviceStop_sequential_cex :
    ((serviceStop 2 [some { name := "a", duration := 5, result := none },
        some { name := "b", duration := 5, result := none }]).2.map StopEntry.finish
      = [2, 4]) ∧
    ¬ (∀ e ∈ (serviceStop 2 [some { name := "a", duration := 5, result := none },
          some { name := "b", duration := 5, result := none }]).2,
        e.finish ≤ 2) := by
  decide

/-- C9 (amended): Service.Stop attempts the Stop of every registered
Stopable module exactly once (no retry), each attempt in its own task
awaited for at most the grace period, the attempts running one after
another rather than concurrently across modules; every module that errored
or timed out is reported under its name in the aggregate error, and Stop
returns nil exactly when every Stopable module stopped cleanly within the
grace period. -/
theorem serviceStop_spec (grace : Nat) (modules : List RegisteredModule) :
    ((serviceStop grace modules).2.map StopEntry.name
      = ((modules.filterMap id).map ModuleSpec.name).reverse) ∧
    (∀ e ∈ (serviceStop grace modules).2, e.finish ≤ e.start + grace) ∧
    ((serviceStop grace modules).1 = none ↔
      ∀ m ∈ modules.filterMap id, m.duration ≤ grace ∧ m.result = none) ∧
    (∀ errs, (serviceStop grace modules).1 = some errs →
      ∀ e ∈ (serviceStop grace modules).2, e.recorded ≠ none →
        (lookupParam errs e.name).isSome = true) := by
  refine ⟨?_, ?_, ?_, ?_⟩
  · show (stopLoop grace 0 ((modules.filterMap id).reverse)).map StopEntry.name
      = ((modules.filterMap id).map ModuleSpec.name).reverse
    rw [stopLoop_name, List.map_reverse]
  · exact stopLoop_bound grace _ 0
  · show (if (stopErrors (stopLoop grace 0 ((modules.filterMap id).reverse))).isEmpty
        then none
        else some (stopErrors (stopLoop grace 0 ((modules.filterMap id).reverse))))
      = none ↔ _
    split_ifs with hempty
    · constructor
      · intro _
        have hnil : stopErrors (stopLoop grace 0 ((modules.filterMap id).reverse)) = [] := by
          simpa [List.isEmpty_iff] using hempty
        have hrec := (stopErrors_nil_iff _).mp hnil
        have hall := (stopLoop_recorded_iff grace _ 0).mp hrec
        intro m hm
        exact hall m (List.mem_reverse.mpr hm)
      · intro _
        rfl
    · constructor
      · intro h
        exact absurd h (by simp)
      · intro hall
        exfalso
        apply hempty
        have hrec : ∀ e ∈ stopLoop grace 0 ((modules.filterMap id).reverse),
            e.recorded = none :=
          (stopLoop_recorded_iff grace _ 0).mpr
            (fun m hm => hall m (List.mem_reverse.mp hm))
        have hnil := (stopErrors_nil_iff _).mpr hrec
        simp [hnil]
  · intro errs herrs e he hrec
    have hif : (if (stopErrors (stopLoop grace 0 ((modules.filterMap id).reverse))).isEmpty
        then none
        else some (stopErrors (stopLoop grace 0 ((modules.filterMap id).reverse))))
      = some errs := herrs
    by_cases hempty :
        (stopErrors (stopLoop grace 0 ((modules.filterMap id).reverse))).isEmpty
    · rw [if_pos hempty] at hif
      exact absurd hif (by simp)
    · rw [if_neg hempty] at hif
      injection hif with hval
      rw [← hval]
      exact recordErr_foldl_reported _ [] e he hrec

/-- C10: whenever Service.Stop runs, its loop attempts the Stopable modules
in exactly the reverse of their registration order (the last registered
Stopable is stopped first), the first attempt starting at time 0 and each
later attempt beginning exactly when the previous module's outcome
(success, error or grace-period timeout) arrived. -/
theorem serviceStop_reverse_sequential (grace : Nat) (modules : List RegisteredModule) :
    ((serviceStop grace modules).2.map StopEntry.name
      = ((modules.filterMap id).map ModuleSpec.name).reverse) ∧
    List.Chain' (fun a b => b.start = a.finish) (serviceStop grace modules).2 ∧
    (∀ e ∈ (serviceStop grace modules).2.head?, e.start = 0) := by
  refine ⟨?_, ?_, ?_⟩
  · show (stopLoop grace 0 ((modules.filterMap id).reverse)).map StopEntry.name
      = ((modules.filterMap id).map ModuleSpec.name).reverse
    rw [stopLoop_name, List.map_reverse]
  · exact stopLoop_chain grace _ 0
  · exact stopLoop_start grace _ 0
